import Mathlib

/-!
Verification development for the meal-order system server.

The data model mirrors the drizzle schema (`users`, `departments`,
`menu_items`, `orders`, `order_items` tables) and the handlers are shallow
embeddings of the TypeScript sources: `createOrder`
(handlers/create_order), `updateMenuItem` (handlers/update_menu_item),
`deleteDepartment` (handlers/delete_department), `getMenuItemReports`
(handlers/get_menu_item_reports).  SQL `numeric(10,2)` columns are modelled
as `Rat`; timestamps as `Nat` (an abstract clock value passed in as `now`);
`serial` primary keys as counters threaded through the store state.
Each handler call is a function from the input and the database state to a
result together with the post-call database state.
-/

/-- Order status enum (`order_status` pg enum / zod `orderStatusSchema`). -/
inductive OrderStatus where
  | pending
  | confirmed
  | delivered
  | cancelled
deriving DecidableEq, Repr

/-- User role enum. -/
inductive UserRole where
  | regular
  | admin
deriving DecidableEq, Repr

/-- A row of `departments`. -/
structure Department where
  id : Nat
  name : String
  created_at : Nat
deriving DecidableEq, Repr

/-- A row of `users`. -/
structure User where
  id : Nat
  name : String
  contact_number : String
  department : String
  role : UserRole
  created_at : Nat
deriving DecidableEq, Repr

/-- A row of `menu_items`.  `price` is the `numeric(10,2)` column as a
rational; `stock_quantity` is the non-negative `integer` column. -/
structure MenuItem where
  id : Nat
  name : String
  price : Rat
  description : Option String
  image_url : Option String
  category : String
  stock_quantity : Nat
  created_at : Nat
  updated_at : Nat
deriving DecidableEq, Repr

/-- A row of `orders`. -/
structure Order where
  id : Nat
  user_id : Nat
  order_date : Nat
  status : OrderStatus
  pickup_or_delivery_time : Nat
  remarks : Option String
  total_amount : Rat
  created_at : Nat
  updated_at : Nat
deriving DecidableEq, Repr

/-- A row of `order_items`. -/
structure OrderItem where
  id : Nat
  order_id : Nat
  menu_item_id : Nat
  quantity : Nat
  price_at_order : Rat
  created_at : Nat
deriving DecidableEq, Repr

/-- The database state: the five tables plus the `serial` counters for the
two tables the order-placement handler inserts into. -/
structure DB where
  departments : List Department
  users : List User
  menuItems : List MenuItem
  orders : List Order
  orderItems : List OrderItem
  nextOrderId : Nat
  nextOrderItemId : Nat
deriving DecidableEq, Repr

/-- One line of a `CreateOrderInput` (zod: `menu_item_id`, positive
`quantity`). -/
structure OrderLine where
  menu_item_id : Nat
  quantity : Nat
deriving DecidableEq, Repr

/-- zod `createOrderInputSchema`: note there is no client-supplied price
anywhere in this input type. -/
structure CreateOrderInput where
  user_id : Nat
  pickup_or_delivery_time : Nat
  remarks : Option String
  order_items : List OrderLine
deriving DecidableEq, Repr

/-- The errors `createOrder` throws (`throw new Error(...)` in
handlers/create_order); each constructor carries the data interpolated
into the thrown message. -/
inductive OrderError where
  | userNotFound
  | menuItemsNotFound
  | menuItemNotFound (id : Nat)
  | insufficientStock (name : String) (available : Nat) (requested : Nat)
deriving DecidableEq, Repr

/-- The exact message strings thrown by handlers/create_order. -/
def OrderError.message : OrderError → String
  | .userNotFound => "User not found"
  | .menuItemsNotFound => "One or more menu items not found"
  | .menuItemNotFound i => "Menu item with id " ++ toString i ++ " not found"
  | .insufficientStock n a r =>
      "Insufficient stock for menu item: " ++ n ++ ". Available: " ++
        toString a ++ ", Requested: " ++ toString r

/-- Embeds `db.select().from(usersTable).where(eq(usersTable.id, uid))`,
reduced to the first (only) matching row. -/
def findUser (db : DB) (uid : Nat) : Option User :=
  db.users.find? (fun u => u.id == uid)

/-- Lookup in the `menuItemMap` built from a list of fetched rows. -/
def lookupMenuItem (items : List MenuItem) (i : Nat) : Option MenuItem :=
  items.find? (fun m => m.id == i)

/-- The stock-check / total-accumulation loop of handlers/create_order
(`for (const orderItem of input.order_items) { ... }`): looks each line up
in the snapshot `menuItemMap`, throws on a missing entry or on
`menuItem.stock_quantity < orderItem.quantity`, otherwise accumulates
`price * quantity`. -/
def checkStockAndTotal (items : List MenuItem) :
    List OrderLine → Rat → Except OrderError Rat
  | [], acc => .ok acc
  | l :: ls, acc =>
    match lookupMenuItem items l.menu_item_id with
    | none => .error (.menuItemNotFound l.menu_item_id)
    | some m =>
      if m.stock_quantity < l.quantity then
        .error (.insufficientStock m.name m.stock_quantity l.quantity)
      else
        checkStockAndTotal items ls (acc + m.price * (l.quantity : Rat))

/-- One SQL statement of the write phase of handlers/create_order.  The
handler issues these as separate auto-committed statements: there is no
`db.transaction(...)` wrapper anywhere in the handler. -/
inductive WriteOp where
  | insertOrder (o : Order)
  | insertOrderItem (oi : OrderItem)
  | setStock (menuItemId : Nat) (newStock : Nat) (now : Nat)
deriving DecidableEq, Repr

/-- Effect of a single write statement on the store. -/
def applyWrite (db : DB) : WriteOp → DB
  | .insertOrder o =>
      { db with orders := db.orders ++ [o], nextOrderId := db.nextOrderId + 1 }
  | .insertOrderItem oi =>
      { db with orderItems := db.orderItems ++ [oi],
                nextOrderItemId := db.nextOrderItemId + 1 }
  | .setStock i s now =>
      { db with menuItems := db.menuItems.map (fun m =>
          if m.id == i then { m with stock_quantity := s, updated_at := now }
          else m) }

/-- The per-line write statements of the handler's second loop, in program
order: insert the order item (with `price_at_order := menuItem.price` from
the snapshot map), then `update menu_items set stock_quantity =
menuItem.stock_quantity - orderItem.quantity` — both values read from the
snapshot taken before any write.  The `none` branch mirrors the handler's
non-null assertion `menuItemMap.get(...)!`; it is unreachable once the
length check has passed. -/
def lineWrites (items : List MenuItem) (orderId now : Nat) :
    List OrderLine → Nat → List WriteOp
  | [], _ => []
  | l :: ls, itemId =>
    match lookupMenuItem items l.menu_item_id with
    | none => []
    | some m =>
      .insertOrderItem { id := itemId, order_id := orderId,
                         menu_item_id := l.menu_item_id,
                         quantity := l.quantity,
                         price_at_order := m.price, created_at := now }
        :: .setStock l.menu_item_id (m.stock_quantity - l.quantity) now
        :: lineWrites items orderId now ls (itemId + 1)

/-- The order-item rows the handler collects into `orderItemsData` (the
`returning()` results of the inserts of `lineWrites`). -/
def builtOrderItems (items : List MenuItem) (orderId now : Nat) :
    List OrderLine → Nat → List OrderItem
  | [], _ => []
  | l :: ls, itemId =>
    match lookupMenuItem items l.menu_item_id with
    | none => []
    | some m =>
      { id := itemId, order_id := orderId, menu_item_id := l.menu_item_id,
        quantity := l.quantity, price_at_order := m.price,
        created_at := now }
        :: builtOrderItems items orderId now ls (itemId + 1)

/-- The hydrated response of `createOrder`: the order row, its user, and
each order item paired with the re-fetched (post-decrement) menu item.
The `Option` mirrors the handler's `updatedMenuItemMap.get(...)!`. -/
structure OrderWithItems where
  order : Order
  user : User
  items : List (OrderItem × Option MenuItem)
deriving DecidableEq, Repr

/-- The order row inserted by handlers/create_order: the insert names only
`user_id`, `pickup_or_delivery_time`, `remarks` and `total_amount`; the
remaining columns take their schema defaults (`status` defaults to
`'pending'`, the timestamp columns to now). -/
def newOrderRow (input : CreateOrderInput) (total : Rat) (orderId now : Nat) :
    Order :=
  { id := orderId, user_id := input.user_id, order_date := now,
    status := .pending,
    pickup_or_delivery_time := input.pickup_or_delivery_time,
    remarks := input.remarks, total_amount := total,
    created_at := now, updated_at := now }

/-- Embeds `const menuItemIds = input.order_items.map(item =>
item.menu_item_id)`. -/
def requestedIds (input : CreateOrderInput) : List Nat :=
  input.order_items.map (fun l => l.menu_item_id)

/-- Embeds the batch fetch `db.select().from(menuItemsTable)
.where(inArray(menuItemsTable.id, menuItemIds))`: the table rows whose id
occurs among the requested ids
(each matching table row once, regardless of request-side duplicates). -/
def fetchedItems (db : DB) (input : CreateOrderInput) : List MenuItem :=
  db.menuItems.filter (fun m => (requestedIds input).contains m.id)

/-- The write statements of `createOrder`, in program order: the order
insert, then per line the order-item insert and the stock update of
`lineWrites`; all written values come from the `items` snapshot. -/
def orderWrites (items : List MenuItem) (input : CreateOrderInput)
    (total : Rat) (orderId itemId now : Nat) : List WriteOp :=
  .insertOrder (newOrderRow input total orderId now)
    :: lineWrites items orderId now input.order_items itemId

/-- The hydrated response built at the end of `createOrder`: the inserted
rows plus, per order item, the re-fetched menu item from the post-write
store `db2`. -/
def orderResult (items : List MenuItem) (input : CreateOrderInput)
    (total : Rat) (user : User) (orderId itemId now : Nat) (db2 : DB) :
    OrderWithItems :=
  { order := newOrderRow input total orderId now, user := user,
    items := (builtOrderItems items orderId now input.order_items
        itemId).map (fun oi =>
      (oi, lookupMenuItem db2.menuItems oi.menu_item_id)) }

/-- Shallow embedding of `createOrder` (src/unnamed/part_004): verify the
user, batch-fetch the referenced menu items with `inArray`, compare the
fetched count with the number of request lines, run the stock-check/total
loop, then issue the order insert, the order-item inserts and the stock
updates and build the hydrated response.  On a thrown error the handler
re-throws without any cleanup, so the returned state is the state reached
when the error was raised. -/
def createOrder (input : CreateOrderInput) (now : Nat) (db : DB) :
    Except OrderError OrderWithItems × DB :=
  match findUser db input.user_id with
  | none => (.error .userNotFound, db)
  | some user =>
    if (fetchedItems db input).length ≠ (requestedIds input).length then
      (.error .menuItemsNotFound, db)
    else
      match checkStockAndTotal (fetchedItems db input)
          input.order_items 0 with
      | .error e => (.error e, db)
      | .ok total =>
        let db' := (orderWrites (fetchedItems db input) input total
          db.nextOrderId db.nextOrderItemId now).foldl applyWrite db
        (.ok (orderResult (fetchedItems db input) input total user
          db.nextOrderId db.nextOrderItemId now db'), db')

/-- A run of `createOrder` in which the `(k+1)`-th SQL statement of the
write phase throws (e.g. a constraint violation or connection failure).
Because the handler wraps nothing in a transaction and its `catch` block
only logs and re-throws, the effects of the first `k` statements remain
committed.  Returns the store as left behind by the aborted call; if
validation already failed the store is untouched. -/
def createOrderFailingAt (input : CreateOrderInput) (now : Nat) (db : DB)
    (k : Nat) : DB :=
  match findUser db input.user_id with
  | none => db
  | some _ =>
    if (fetchedItems db input).length ≠ (requestedIds input).length then db
    else
      match checkStockAndTotal (fetchedItems db input)
          input.order_items 0 with
      | .error _ => db
      | .ok total =>
        ((orderWrites (fetchedItems db input) input total db.nextOrderId
          db.nextOrderItemId now).take k).foldl applyWrite db

/-- A `createOrder` run whose read phase (user fetch, menu-item batch
fetch, stock checks, total computation) executed against `snapshot`, while
its write phase runs against `current`.  This is exactly what the handler
does when another request's writes commit between its reads and its
writes: every `await` in the handler is a suspension point, all stock
checks and all written values (`price_at_order`, `stock_quantity :=
menuItem.stock_quantity - quantity`) come from the `menuItemMap` snapshot,
and no transaction isolates the two phases.  `createOrderStale i now db db`
is the undisturbed run `createOrder i now db`. -/
def createOrderStale (input : CreateOrderInput) (now : Nat)
    (snapshot current : DB) : Except OrderError OrderWithItems × DB :=
  match findUser snapshot input.user_id with
  | none => (.error .userNotFound, current)
  | some user =>
    if (fetchedItems snapshot input).length ≠ (requestedIds input).length
    then
      (.error .menuItemsNotFound, current)
    else
      match checkStockAndTotal (fetchedItems snapshot input)
          input.order_items 0 with
      | .error e => (.error e, current)
      | .ok total =>
        let db' := (orderWrites (fetchedItems snapshot input) input total
          current.nextOrderId current.nextOrderItemId now).foldl
          applyWrite current
        (.ok (orderResult (fetchedItems snapshot input) input total user
          current.nextOrderId current.nextOrderItemId now db'), db')

/-- The interleaving A₁ A₂ B₁ B₂ of two concurrent `createOrder` calls:
both read phases run against the initial store, call 1 then commits its
writes, call 2 commits its (stale) writes afterwards. -/
def twoConcurrent (i1 i2 : CreateOrderInput) (now : Nat) (db : DB) :
    Except OrderError OrderWithItems × Except OrderError OrderWithItems × DB :=
  let r1 := createOrder i1 now db
  let r2 := createOrderStale i2 now db r1.2
  (r1.1, r2.1, r2.2)

/-- zod `updateMenuItemInputSchema`: a partial patch — `none` means the
field was not provided.  For the two nullable columns the inner `Option`
is the column value itself. -/
structure UpdateMenuItemInput where
  id : Nat
  name : Option String
  price : Option Rat
  description : Option (Option String)
  image_url : Option (Option String)
  category : Option String
  stock_quantity : Option Nat
deriving DecidableEq, Repr

/-- Errors of the admin mutation handlers. -/
inductive AdminError where
  | menuItemNotFound (id : Nat)
  | orderNotFound (id : Nat)
deriving DecidableEq, Repr

/-- The exact message strings of the corresponding `throw new Error(...)`. -/
def AdminError.message : AdminError → String
  | .menuItemNotFound i => "Menu item with id " ++ toString i ++ " not found"
  | .orderNotFound i => "Order with id " ++ toString i ++ " not found"

/-- The `updateData` object of handlers/update_menu_item applied to a row:
`updated_at` is always refreshed, every other column changes only when the
patch provides it. -/
def applyMenuItemPatch (input : UpdateMenuItemInput) (now : Nat)
    (m : MenuItem) : MenuItem :=
  { m with
    updated_at := now,
    name := input.name.getD m.name,
    price := input.price.getD m.price,
    description := input.description.getD m.description,
    image_url := input.image_url.getD m.image_url,
    category := input.category.getD m.category,
    stock_quantity := input.stock_quantity.getD m.stock_quantity }

/-- Shallow embedding of `updateMenuItem` (handlers/update_menu_item):
check existence, then update the single matching row.  It touches only the
`menu_items` table. -/
def updateMenuItem (input : UpdateMenuItemInput) (now : Nat) (db : DB) :
    Except AdminError MenuItem × DB :=
  match db.menuItems.find? (fun m => m.id == input.id) with
  | none => (.error (.menuItemNotFound input.id), db)
  | some m =>
    let m' := applyMenuItemPatch input now m
    (.ok m',
     { db with menuItems := db.menuItems.map (fun x =>
         if x.id == input.id then applyMenuItemPatch input now x else x) })

/-- zod `updateOrderStatusInputSchema`. -/
structure UpdateOrderStatusInput where
  id : Nat
  status : OrderStatus
deriving DecidableEq, Repr

/-- Modelled from the spec: the real `updateOrderStatus` handler body is
missing from the sources — handlers/update_order_status contains only a
placeholder stub, and only its router registration and its tests are
present.  Spec §4.2/§6: the order must exist (else NotFound with message
"Order with id {id} not found"); on success the status is set, `updated_at`
is refreshed, and all other fields are untouched. -/
def updateOrderStatus (input : UpdateOrderStatusInput) (now : Nat) (db : DB) :
    Except AdminError Order × DB :=
  match db.orders.find? (fun o => o.id == input.id) with
  | none => (.error (.orderNotFound input.id), db)
  | some o =>
    let o' := { o with status := input.status, updated_at := now }
    (.ok o',
     { db with orders := db.orders.map (fun x =>
         if x.id == input.id then { x with status := input.status,
                                           updated_at := now }
         else x) })

/-- Shallow embedding of `deleteDepartment` (handlers/delete_department):
`db.delete(departmentsTable).where(eq(id)).returning()`, then
`{ success: result.length > 0 }`.  There is no existence pre-check and no
thrown NotFound: the handler is total. -/
def deleteDepartment (id : Nat) (db : DB) : Bool × DB :=
  let deleted := db.departments.filter (fun d => d.id == id)
  (decide (0 < deleted.length),
   { db with departments := db.departments.filter (fun d => ¬ d.id == id) })

/-- One row of the menu-item report (zod `menuItemReportSchema`). -/
structure MenuItemReport where
  menu_item_id : Nat
  menu_item_name : String
  total_orders : Nat
  total_quantity : Nat
  total_amount : Rat
deriving DecidableEq, Repr

/-- The order items the SQL of handlers/get_menu_item_reports associates
with menu item `mid`: `order_items` inner-joined with `orders` on
`order_id` (a row survives the join only if its order exists) and matched
to the menu item by `menu_item_id`. -/
def joinedItemsFor (db : DB) (mid : Nat) : List OrderItem :=
  db.orderItems.filter (fun oi =>
    oi.menu_item_id == mid && db.orders.any (fun o => o.id == oi.order_id))

/-- The aggregate row `{menu_item_id, name, count(distinct order_id),
sum(quantity), sum(quantity * price_at_order)}` computed from a group of
order items. -/
def aggregateRow (m : MenuItem) (its : List OrderItem) : MenuItemReport :=
  { menu_item_id := m.id, menu_item_name := m.name,
    total_orders := ((its.map (fun oi => oi.order_id)).dedup).length,
    total_quantity := (its.map (fun oi => oi.quantity)).sum,
    total_amount :=
      (its.map (fun oi => (oi.quantity : Rat) * oi.price_at_order)).sum }

/-- Descending comparison on `total_amount`, the report's sort key
(`order by sum(quantity * price_at_order) desc`). -/
def reportGE (a b : MenuItemReport) : Prop :=
  b.total_amount ≤ a.total_amount

instance : DecidableRel reportGE := fun a b =>
  inferInstanceAs (Decidable (b.total_amount ≤ a.total_amount))

instance : IsTotal MenuItemReport reportGE :=
  ⟨fun a b => (le_total b.total_amount a.total_amount).imp id id⟩

instance : IsTrans MenuItemReport reportGE :=
  ⟨fun _ _ _ h1 h2 => le_trans h2 h1⟩

/-- Shallow embedding of `getMenuItemReports`
(handlers/get_menu_item_reports): the inner join keeps exactly the menu
items having at least one joined order item (SQL `group by` emits no row
for an empty group), each group is aggregated, and the rows are sorted by
`total_amount` descending. -/
def getMenuItemReports (db : DB) : List MenuItemReport :=
  let rows := (db.menuItems.filter (fun m =>
      decide (joinedItemsFor db m.id ≠ []))).map
    (fun m => aggregateRow m (joinedItemsFor db m.id))
  rows.insertionSort reportGE

/-- One call of the mutating server API surface modelled in this file. -/
inductive Op where
  | placeOrder (input : CreateOrderInput) (now : Nat)
  | patchMenuItem (input : UpdateMenuItemInput) (now : Nat)
  | setOrderStatus (input : UpdateOrderStatusInput) (now : Nat)
  | removeDepartment (id : Nat)
deriving Repr

/-- State transition of one API call (the result value is dropped). -/
def applyOp (db : DB) : Op → DB
  | .placeOrder input now => (createOrder input now db).2
  | .patchMenuItem input now => (updateMenuItem input now db).2
  | .setOrderStatus input now => (updateOrderStatus input now db).2
  | .removeDepartment id => (deleteDepartment id db).2

/-- Running a sequence of API calls. -/
def applyOps (db : DB) (ops : List Op) : DB :=
  ops.foldl applyOp db

/-- The error carried by an `Except` result, if any. -/
def errorOf {ε α : Type} : Except ε α → Option ε
  | .error e => some e
  | .ok _ => none

/-- The price of menu item `i` in the catalog (0 if absent; every use below
is guarded by the existence of the item). -/
def catalogPrice (db : DB) (i : Nat) : Rat :=
  ((db.menuItems.find? (fun m => m.id == i)).map MenuItem.price).getD 0

/-- Spec-side grouping for the menu-item report: the order items with a
given `menu_item_id`, with no join condition — "group all order items by
menu_item_id". -/
def specItemsFor (db : DB) (mid : Nat) : List OrderItem :=
  db.orderItems.filter (fun oi => oi.menu_item_id == mid)

/-- Spec-side reading of the menu-item report, before sorting: one
aggregate row per menu item that occurs in at least one order item. -/
def specMenuItemRows (db : DB) : List MenuItemReport :=
  (db.menuItems.filter (fun m =>
      decide (specItemsFor db m.id ≠ []))).map
    (fun m => aggregateRow m (specItemsFor db m.id))

/- Concrete fixtures used by witnesses and counterexamples. -/

/-- A menu item with stock 10. -/
def itemA : MenuItem :=
  { id := 1, name := "Pizza", price := 5, description := none,
    image_url := none, category := "Food", stock_quantity := 10,
    created_at := 0, updated_at := 0 }

/-- A second menu item with stock 5. -/
def itemB : MenuItem :=
  { id := 2, name := "Burger", price := 3, description := none,
    image_url := none, category := "Food", stock_quantity := 5,
    created_at := 0, updated_at := 0 }

/-- A menu item with a single unit in stock. -/
def itemScarce : MenuItem :=
  { id := 3, name := "Scarce", price := 2, description := none,
    image_url := none, category := "Food", stock_quantity := 1,
    created_at := 0, updated_at := 0 }

/-- A registered user. -/
def userAlice : User :=
  { id := 1, name := "Alice", contact_number := "123", department := "IT",
    role := .regular, created_at := 0 }

/-- A store with one user and the two stocked items. -/
def dbAB : DB :=
  { departments := [⟨1, "IT", 0⟩], users := [userAlice],
    menuItems := [itemA, itemB], orders := [], orderItems := [],
    nextOrderId := 1, nextOrderItemId := 1 }

/-- A store whose only item is the scarce one. -/
def dbScarce : DB :=
  { departments := [], users := [userAlice], menuItems := [itemScarce],
    orders := [], orderItems := [], nextOrderId := 1, nextOrderItemId := 1 }

/-- An empty store. -/
def dbEmpty : DB :=
  { departments := [], users := [], menuItems := [], orders := [],
    orderItems := [], nextOrderId := 1, nextOrderItemId := 1 }

/-- A two-line cart: 2 pizzas and 1 burger. -/
def cartAB : CreateOrderInput :=
  { user_id := 1, pickup_or_delivery_time := 100, remarks := none,
    order_items := [⟨1, 2⟩, ⟨2, 1⟩] }

/-- A cart listing the same existing menu item on two lines. -/
def cartDup : CreateOrderInput :=
  { user_id := 1, pickup_or_delivery_time := 100, remarks := none,
    order_items := [⟨1, 1⟩, ⟨1, 1⟩] }

/-- A one-line cart for one unit of the scarce item. -/
def cartScarce : CreateOrderInput :=
  { user_id := 1, pickup_or_delivery_time := 100, remarks := none,
    order_items := [⟨3, 1⟩] }

/-- A placed order. -/
def orderFix : Order :=
  { id := 1, user_id := 1, order_date := 0, status := .pending,
    pickup_or_delivery_time := 100, remarks := none, total_amount := 10,
    created_at := 0, updated_at := 0 }

/-- An order item of `orderFix` for `itemA`, frozen at price 5. -/
def orderItemFix : OrderItem :=
  { id := 1, order_id := 1, menu_item_id := 1, quantity := 2,
    price_at_order := 5, created_at := 0 }

/-- A store holding one placed order with one order item. -/
def dbWithOrder : DB :=
  { departments := [⟨1, "IT", 0⟩], users := [userAlice],
    menuItems := [itemA, itemB], orders := [orderFix],
    orderItems := [orderItemFix], nextOrderId := 2, nextOrderItemId := 2 }

/-- A patch that changes only `itemA`'s price. -/
def priceUpdate : UpdateMenuItemInput :=
  { id := 1, name := none, price := some 9, description := none,
    image_url := none, category := none, stock_quantity := none }

/- Helper lemmas about the list primitives the handlers are built from. -/

theorem find?_filter_of_imp {α : Type} (l : List α) (p q : α → Bool)
    (h : ∀ a, p a = true → q a = true) :
    (l.filter q).find? p = l.find? p := by
  induction l with
  | nil => rfl
  | cons a t ih =>
    by_cases hq : q a = true
    · rw [List.filter_cons_of_pos hq]
      by_cases hp : p a = true
      · rw [List.find?_cons_of_pos _ hp, List.find?_cons_of_pos _ hp]
      · rw [List.find?_cons_of_neg _ (by simpa using hp),
            List.find?_cons_of_neg _ (by simpa using hp), ih]
    · have hp : ¬ p a = true := fun hpa => hq (h a hpa)
      rw [List.filter_cons_of_neg (by simpa using hq),
          List.find?_cons_of_neg _ (by simpa using hp), ih]

theorem contains_singleton (a b : Nat) : [a].contains b = (b == a) := by
  cases h : b == a <;> simp_all [List.contains]

theorem applyWrite_orders_of_insertOrderItem (db : DB) (oi : OrderItem) :
    (applyWrite db (.insertOrderItem oi)).orders = db.orders := rfl

theorem lineWrites_foldl_orders (items : List MenuItem) (oid now2 : Nat) :
    ∀ (ls : List OrderLine) (k : Nat) (db : DB),
      ((lineWrites items oid now2 ls k).foldl applyWrite db).orders
        = db.orders := by
  intro ls
  induction ls with
  | nil => intro k db; rfl
  | cons l t ih =>
    intro k db
    simp only [lineWrites]
    cases lookupMenuItem items l.menu_item_id with
    | none => rfl
    | some m => simpa using ih (k + 1) _

theorem lineWrites_foldl_nextOrderId (items : List MenuItem)
    (oid now2 : Nat) :
    ∀ (ls : List OrderLine) (k : Nat) (db : DB),
      ((lineWrites items oid now2 ls k).foldl applyWrite db).nextOrderId
        = db.nextOrderId := by
  intro ls
  induction ls with
  | nil => intro k db; rfl
  | cons l t ih =>
    intro k db
    simp only [lineWrites]
    cases lookupMenuItem items l.menu_item_id with
    | none => rfl
    | some m => simpa using ih (k + 1) _

theorem applyWrite_orderItems_mono (db : DB) (w : WriteOp) :
    ∀ oi ∈ db.orderItems, oi ∈ (applyWrite db w).orderItems := by
  intro oi h
  cases w with
  | insertOrder o => exact h
  | insertOrderItem x => exact List.mem_append_left _ h
  | setStock i s n => exact h

theorem foldl_applyWrite_orderItems_mono :
    ∀ (ws : List WriteOp) (db : DB),
      ∀ oi ∈ db.orderItems, oi ∈ (ws.foldl applyWrite db).orderItems := by
  intro ws
  induction ws with
  | nil => intro db oi h; exact h
  | cons w t ih =>
    intro db oi h
    exact ih (applyWrite db w) oi (applyWrite_orderItems_mono db w oi h)

theorem filter_beq_id_eq_singleton (l : List MenuItem) (i : Nat)
    (m : MenuItem) (hn : (l.map MenuItem.id).Nodup)
    (h : l.find? (fun x => x.id == i) = some m) :
    l.filter (fun x => x.id == i) = [m] := by
  induction l with
  | nil => simp at h
  | cons a t ih =>
    rw [List.map_cons, List.nodup_cons] at hn
    by_cases ha : (a.id == i) = true
    · simp only [List.find?_cons, ha] at h
      injection h with h
      subst h
      have hai : a.id = i := by simpa using ha
      have ht : t.filter (fun x => x.id == i) = [] := by
        rw [List.filter_eq_nil_iff]
        intro x hx hxi
        have hxi2 : x.id = i := by simpa using hxi
        exact hn.1 ((hai.trans hxi2.symm) ▸
          List.mem_map_of_mem MenuItem.id hx)
      simp [List.filter_cons, ha, ht]
    · rw [Bool.not_eq_true] at ha
      simp only [List.find?_cons, ha] at h
      simp [List.filter_cons, ha]
      exact ih hn.2 h

theorem find?_map_ite_id (l : List MenuItem) (i : Nat) (m : MenuItem)
    (g : MenuItem → MenuItem) (hg : ∀ x, (g x).id = x.id)
    (h : l.find? (fun x => x.id == i) = some m) :
    (l.map (fun x => if x.id == i then g x else x)).find?
      (fun x => x.id == i) = some (g m) := by
  induction l with
  | nil => simp at h
  | cons a t ih =>
    by_cases ha : (a.id == i) = true
    · simp only [List.find?_cons, ha] at h
      injection h with h
      subst h
      have hga : ((g a).id == i) = true := by rw [hg]; exact ha
      simp only [List.map_cons, if_pos ha, List.find?_cons, hga]
    · rw [Bool.not_eq_true] at ha
      simp only [List.find?_cons, ha] at h
      rw [List.map_cons, if_neg (by rw [ha]; exact Bool.false_ne_true)]
      simp only [List.find?_cons, ha]
      exact ih h

theorem checkStockAndTotal_ok_sum (items : List MenuItem) :
    ∀ (ls : List OrderLine) (acc t : Rat),
      checkStockAndTotal items ls acc = .ok t →
      t = acc + (ls.map (fun l =>
        (((lookupMenuItem items l.menu_item_id).map MenuItem.price).getD 0)
          * (l.quantity : Rat))).sum := by
  intro ls
  induction ls with
  | nil =>
    intro acc t h
    injection h with h
    simp [h.symm]
  | cons l tl ih =>
    intro acc t h
    simp only [checkStockAndTotal] at h
    split at h
    · exact absurd h (by simp)
    · rename_i m hm
      split at h
      · exact absurd h (by simp)
      · rw [ih _ _ h]
        simp [hm]
        ring

theorem checkStockAndTotal_ok_lookup (items : List MenuItem) :
    ∀ (ls : List OrderLine) (acc t : Rat),
      checkStockAndTotal items ls acc = .ok t →
      ∀ l ∈ ls, ∃ m, lookupMenuItem items l.menu_item_id = some m := by
  intro ls
  induction ls with
  | nil => intro acc t _ l hl; simp at hl
  | cons l tl ih =>
    intro acc t h x hx
    simp only [checkStockAndTotal] at h
    split at h
    · exact absurd h (by simp)
    · rename_i m hm
      split at h
      · exact absurd h (by simp)
      · rcases List.mem_cons.mp hx with rfl | hx'
        · exact ⟨m, hm⟩
        · exact ih _ _ h x hx'

theorem checkStockAndTotal_no_notFoundAll (items : List MenuItem) :
    ∀ (ls : List OrderLine) (acc : Rat),
      checkStockAndTotal items ls acc ≠ .error .menuItemsNotFound := by
  intro ls
  induction ls with
  | nil => intro acc h; exact absurd h (by simp [checkStockAndTotal])
  | cons l tl ih =>
    intro acc h
    simp only [checkStockAndTotal] at h
    split at h
    · simp at h
    · split at h
      · simp at h
      · exact ih _ h

theorem builtOrderItems_mem (items : List MenuItem) (oid now2 : Nat) :
    ∀ (ls : List OrderLine) (k : Nat) (oi : OrderItem),
      oi ∈ builtOrderItems items oid now2 ls k →
      ∃ l ∈ ls, ∃ m, lookupMenuItem items l.menu_item_id = some m ∧
        oi.menu_item_id = l.menu_item_id ∧ oi.price_at_order = m.price := by
  intro ls
  induction ls with
  | nil => intro k oi h; simp [builtOrderItems] at h
  | cons l tl ih =>
    intro k oi h
    simp only [builtOrderItems] at h
    split at h
    · simp at h
    · rename_i m hm
      rcases List.mem_cons.mp h with rfl | h'
      · exact ⟨l, List.mem_cons_self l tl, m, hm, rfl, rfl⟩
      · rcases ih (k + 1) oi h' with ⟨l', hl', m', hm', h1, h2⟩
        exact ⟨l', List.mem_cons_of_mem l hl', m', hm', h1, h2⟩

theorem builtOrderItems_length (items : List MenuItem) (oid now2 : Nat) :
    ∀ (ls : List OrderLine) (k : Nat),
      (∀ l ∈ ls, ∃ m, lookupMenuItem items l.menu_item_id = some m) →
      (builtOrderItems items oid now2 ls k).length = ls.length := by
  intro ls
  induction ls with
  | nil => intro k _; rfl
  | cons l tl ih =>
    intro k hall
    rcases hall l (List.mem_cons_self l tl) with ⟨m, hm⟩
    simp only [builtOrderItems, hm, List.length_cons]
    rw [ih (k + 1) (fun x hx => hall x (List.mem_cons_of_mem l hx))]

theorem createOrder_ok_elim (input : CreateOrderInput) (now : Nat) (db : DB)
    (h : ((createOrder input now db).1).isOk = true) :
    ∃ user total,
      findUser db input.user_id = some user ∧
      (fetchedItems db input).length = (requestedIds input).length ∧
      checkStockAndTotal (fetchedItems db input) input.order_items 0
        = .ok total ∧
      createOrder input now db =
        (.ok (orderResult (fetchedItems db input) input total user
            db.nextOrderId db.nextOrderItemId now
            ((orderWrites (fetchedItems db input) input total db.nextOrderId
              db.nextOrderItemId now).foldl applyWrite db)),
         (orderWrites (fetchedItems db input) input total db.nextOrderId
           db.nextOrderItemId now).foldl applyWrite db) := by
  simp only [createOrder] at h
  split at h
  · simp [Except.toBool] at h
  · rename_i user huser
    split at h
    · simp [Except.toBool] at h
    · rename_i hlen
      split at h
      · simp [Except.toBool] at h
      · rename_i total hcst
        refine ⟨user, total, huser, not_not.mp hlen, hcst, ?_⟩
        simp only [createOrder, huser]
        rw [if_neg hlen]
        simp only [hcst]

/-- C1: `createOrder` is NOT atomic.  On the two-line cart `cartAB`
(validation succeeds: the undisturbed run returns `.ok`), a run in which
the fourth SQL statement — the second order-item insert — throws leaves the
store with the Order row committed (one order where the pre-call store had
none), exactly one of the two OrderItem rows committed, and the first
item's stock already decremented from 10 to 8, while the second item's
stock is untouched: a partial Order, partial OrderItems and a stock
change, where the claim demands the pre-call state.  The handler wraps its
six statements in no transaction and its catch block only re-throws. -/
theorem createOrder_not_atomic :
    ((createOrder cartAB 7 dbAB).1.isOk = true) ∧
    (createOrderFailingAt cartAB 7 dbAB 3).orders.length = 1 ∧
    dbAB.orders.length = 0 ∧
    (createOrderFailingAt cartAB 7 dbAB 3).orderItems.length = 1 ∧
    cartAB.order_items.length = 2 ∧
    (lookupMenuItem (createOrderFailingAt cartAB 7 dbAB 3).menuItems
        1).map MenuItem.stock_quantity = some 8 ∧
    (lookupMenuItem dbAB.menuItems 1).map MenuItem.stock_quantity
      = some 10 ∧
    (lookupMenuItem (createOrderFailingAt cartAB 7 dbAB 3).menuItems
        2).map MenuItem.stock_quantity = some 5 := by
  exact ⟨by decide, by decide, by decide, by decide, by decide, by decide,
    by decide, by decide⟩

/-- C2: the stock check and the stock decrement are not serializable.
Under the interleaving A₁ A₂ B₁ B₂ — both calls read the catalog before
either writes, which the handler permits because every awaited statement is
a suspension point and nothing is wrapped in a transaction — two
`createOrder` calls each requesting 1 unit of an item with stock 1 BOTH
return `.ok` (q₁ + q₂ = 2 > S = 1, yet no call fails with
InsufficientStock), two orders for the item are committed, and the final
stock is 0: one unit of stock was sold twice. -/
theorem createOrder_oversells_concurrently :
    ((twoConcurrent cartScarce cartScarce 7 dbScarce).1.isOk = true) ∧
    ((twoConcurrent cartScarce cartScarce 7 dbScarce).2.1.isOk = true) ∧
    ((twoConcurrent cartScarce cartScarce 7 dbScarce).2.2.orders.length
      = 2) ∧
    (((twoConcurrent cartScarce cartScarce 7 dbScarce).2.2.orderItems.map
        OrderItem.quantity).sum = 2) ∧
    (lookupMenuItem
        (twoConcurrent cartScarce cartScarce 7 dbScarce).2.2.menuItems
        3).map MenuItem.stock_quantity = some 0 ∧
    (lookupMenuItem dbScarce.menuItems 3).map MenuItem.stock_quantity
      = some 1 := by
  refine ⟨by decide, by decide, by decide, by decide, by decide, by decide⟩

/-- C5 counterexample: a cart listing an EXISTING menu item on two lines is
rejected with the NotFound error "One or more menu items not found",
although every referenced `menu_item_id` resolves: the handler compares the
number of distinct fetched rows with the number of request lines. -/
theorem createOrder_duplicate_lines_rejected :
    (∀ l ∈ cartDup.order_items,
      ∃ m ∈ dbAB.menuItems, m.id = l.menu_item_id) ∧
    errorOf (createOrder cartDup 7 dbAB).1 = some .menuItemsNotFound := by
  refine ⟨by decide, by decide⟩

/-- C8: every order created by `createOrder` has status `pending` at
creation, for every input on which the call succeeds: the insert names no
status, so the row takes the schema default `'pending'`, and the returned
order is that row. -/
theorem createOrder_status_pending (input : CreateOrderInput) (now : Nat)
    (db : DB) (h : ((createOrder input now db).1).isOk = true) :
    ∃ owi, (createOrder input now db).1 = .ok owi ∧
      owi.order.status = .pending ∧
      (createOrder input now db).2.orders = db.orders ++ [owi.order] := by
  obtain ⟨user, total, huser, hlen, hcst, heq⟩ :=
    createOrder_ok_elim input now db h
  refine ⟨_, by rw [heq], rfl, ?_⟩
  rw [heq]
  show ((orderWrites (fetchedItems db input) input total db.nextOrderId
      db.nextOrderItemId now).foldl applyWrite db).orders = _
  rw [orderWrites, List.foldl_cons, lineWrites_foldl_orders]
  rfl

/-- C8 witness: the concrete two-line order on `dbAB` succeeds, its status
is `pending`, and the ledger gained exactly that order. -/
theorem createOrder_status_pending_witness :
    ∃ owi, (createOrder cartAB 7 dbAB).1 = .ok owi ∧
      owi.order.status = .pending ∧
      (createOrder cartAB 7 dbAB).2.orders = dbAB.orders ++ [owi.order] :=
  createOrder_status_pending cartAB 7 dbAB (by decide)

theorem contains_of_mem (l : List Nat) (a : Nat) (h : a ∈ l) :
    l.contains a = true := by
  induction l with
  | nil => cases h
  | cons b t ih =>
    rcases List.mem_cons.mp h with rfl | h'
    · simp [List.contains]
    · simp [List.contains, ih h', List.elem_cons]
      cases hab : a == b <;> simp_all [List.contains, List.elem]

theorem lookup_fetched_eq (db : DB) (input : CreateOrderInput) (i : Nat)
    (hi : i ∈ requestedIds input) :
    lookupMenuItem (fetchedItems db input) i
      = db.menuItems.find? (fun m => m.id == i) := by
  unfold lookupMenuItem fetchedItems
  apply find?_filter_of_imp
  intro a ha
  have hai : a.id = i := by simpa using ha
  rw [hai]
  exact contains_of_mem _ _ hi

/-- C4: on every successful call, the created order's `total_amount` is the
sum over the request lines of (catalog price of the line's menu item at
call time × quantity), each created order item's `price_at_order` is
exactly that catalog price, and there is one order item per request line.
The input type (`createOrderInputSchema`) carries no client price, so no
client-supplied price can influence the result. -/
theorem createOrder_total_from_catalog (input : CreateOrderInput)
    (now : Nat) (db : DB)
    (h : ((createOrder input now db).1).isOk = true) :
    ∃ owi, (createOrder input now db).1 = .ok owi ∧
      owi.order.total_amount =
        (input.order_items.map (fun l =>
          catalogPrice db l.menu_item_id * (l.quantity : Rat))).sum ∧
      (∀ p ∈ owi.items,
        (db.menuItems.find? (fun m => m.id == (p.1).menu_item_id)).map
            MenuItem.price = some (p.1).price_at_order) ∧
      owi.items.length = input.order_items.length := by
  obtain ⟨user, total, huser, hlen, hcst, heq⟩ :=
    createOrder_ok_elim input now db h
  refine ⟨_, by rw [heq], ?_, ?_, ?_⟩
  · show (newOrderRow input total db.nextOrderId now).total_amount = _
    show total = _
    rw [checkStockAndTotal_ok_sum (fetchedItems db input)
      input.order_items 0 total hcst, zero_add]
    congr 1
    apply List.map_congr_left
    intro l hl
    rw [lookup_fetched_eq db input l.menu_item_id
      (List.mem_map_of_mem (fun x => x.menu_item_id) hl)]
    rfl
  · intro p hp
    simp only [orderResult, List.mem_map] at hp
    obtain ⟨oi, hoi, rfl⟩ := hp
    obtain ⟨l, hl, m, hm, hid, hprice⟩ :=
      builtOrderItems_mem (fetchedItems db input) db.nextOrderId now
        input.order_items db.nextOrderItemId oi hoi
    rw [hid, ← lookup_fetched_eq db input l.menu_item_id
      (List.mem_map_of_mem (fun x => x.menu_item_id) hl), hm, hprice]
    rfl
  · show ((builtOrderItems (fetchedItems db input) db.nextOrderId now
      input.order_items db.nextOrderItemId).map _).length = _
    rw [List.length_map]
    exact builtOrderItems_length (fetchedItems db input) db.nextOrderId now
      input.order_items db.nextOrderItemId
      (checkStockAndTotal_ok_lookup (fetchedItems db input)
        input.order_items 0 total hcst)

/-- C4 witness: the concrete two-line order on `dbAB` (2 pizzas at 5, one
burger at 3) satisfies the totals-and-snapshot property. -/
theorem createOrder_total_from_catalog_witness :
    ∃ owi, (createOrder cartAB 7 dbAB).1 = .ok owi ∧
      owi.order.total_amount =
        (cartAB.order_items.map (fun l =>
          catalogPrice dbAB l.menu_item_id * (l.quantity : Rat))).sum ∧
      (∀ p ∈ owi.items,
        (dbAB.menuItems.find? (fun m => m.id == (p.1).menu_item_id)).map
            MenuItem.price = some (p.1).price_at_order) ∧
      owi.items.length = cartAB.order_items.length :=
  createOrder_total_from_catalog cartAB 7 dbAB (by decide)

theorem createOrder_eval_ok (input : CreateOrderInput) (now : Nat) (db : DB)
    (user : User) (total : Rat)
    (huser : findUser db input.user_id = some user)
    (hlen : (fetchedItems db input).length = (requestedIds input).length)
    (hcst : checkStockAndTotal (fetchedItems db input) input.order_items 0
      = .ok total) :
    createOrder input now db =
      (.ok (orderResult (fetchedItems db input) input total user
          db.nextOrderId db.nextOrderItemId now
          ((orderWrites (fetchedItems db input) input total db.nextOrderId
            db.nextOrderItemId now).foldl applyWrite db)),
       (orderWrites (fetchedItems db input) input total db.nextOrderId
         db.nextOrderItemId now).foldl applyWrite db) := by
  simp only [createOrder, huser]
  rw [if_neg (by rw [hlen]; exact fun hne => hne rfl)]
  simp only [hcst]

theorem createOrder_eval_err (input : CreateOrderInput) (now : Nat)
    (db : DB) (user : User) (e : OrderError)
    (huser : findUser db input.user_id = some user)
    (hlen : (fetchedItems db input).length = (requestedIds input).length)
    (hcst : checkStockAndTotal (fetchedItems db input) input.order_items 0
      = .error e) :
    createOrder input now db = (.error e, db) := by
  simp only [createOrder, huser]
  rw [if_neg (by rw [hlen]; exact fun hne => hne rfl)]
  simp only [hcst]

theorem fetched_singleton (db : DB) (uid pt : Nat) (rem : Option String)
    (m : MenuItem) (q : Nat)
    (hnodup : (db.menuItems.map MenuItem.id).Nodup)
    (hitem : db.menuItems.find? (fun x => x.id == m.id) = some m) :
    fetchedItems db ⟨uid, pt, rem, [⟨m.id, q⟩]⟩ = [m] := by
  unfold fetchedItems
  have hre : requestedIds ⟨uid, pt, rem, [⟨m.id, q⟩]⟩ = [m.id] := rfl
  rw [hre]
  rw [List.filter_congr (fun x _ => contains_singleton m.id x.id)]
  exact filter_beq_id_eq_singleton db.menuItems m.id m hnodup hitem

/-- C3: with a single line requesting exactly the item's current stock the
call succeeds and drives the stock to 0; requesting one unit more fails
with the InsufficientStock error carrying the item's name, the available
count and the requested count, and leaves the store untouched. -/
theorem createOrder_stock_boundary (db : DB) (now uid pt : Nat)
    (rem : Option String) (u : User) (m : MenuItem)
    (hnodup : (db.menuItems.map MenuItem.id).Nodup)
    (huser : findUser db uid = some u)
    (hitem : db.menuItems.find? (fun x => x.id == m.id) = some m) :
    (((createOrder ⟨uid, pt, rem, [⟨m.id, m.stock_quantity⟩]⟩ now db).1).isOk
        = true ∧
      lookupMenuItem
        ((createOrder ⟨uid, pt, rem, [⟨m.id, m.stock_quantity⟩]⟩ now
          db).2).menuItems m.id =
        some { m with stock_quantity := 0, updated_at := now }) ∧
    createOrder ⟨uid, pt, rem, [⟨m.id, m.stock_quantity + 1⟩]⟩ now db =
      (.error (.insufficientStock m.name m.stock_quantity
        (m.stock_quantity + 1)), db) := by
  have hlook : lookupMenuItem [m] m.id = some m := by
    simp [lookupMenuItem]
  have hcst1 : checkStockAndTotal [m] [⟨m.id, m.stock_quantity⟩] 0
      = .ok (0 + m.price * (m.stock_quantity : Rat)) := by
    simp [checkStockAndTotal, hlook]
  have hcst2 : checkStockAndTotal [m] [⟨m.id, m.stock_quantity + 1⟩] 0
      = .error (.insufficientStock m.name m.stock_quantity
          (m.stock_quantity + 1)) := by
    simp [checkStockAndTotal, hlook, Nat.lt_succ_self]
  have hf1 := fetched_singleton db uid pt rem m m.stock_quantity hnodup hitem
  have hf2 := fetched_singleton db uid pt rem m (m.stock_quantity + 1)
    hnodup hitem
  have heval1 := createOrder_eval_ok ⟨uid, pt, rem,
      [⟨m.id, m.stock_quantity⟩]⟩ now db u
    (0 + m.price * (m.stock_quantity : Rat)) huser
    (by rw [hf1]; rfl) (by rw [hf1]; exact hcst1)
  have heval2 := createOrder_eval_err ⟨uid, pt, rem,
      [⟨m.id, m.stock_quantity + 1⟩]⟩ now db u
    (.insufficientStock m.name m.stock_quantity (m.stock_quantity + 1))
    huser (by rw [hf2]; rfl) (by rw [hf2]; exact hcst2)
  refine ⟨⟨by rw [heval1]; rfl, ?_⟩, heval2⟩
  rw [heval1, hf1]
  simp only [orderWrites, lineWrites, hlook, List.foldl, applyWrite]
  unfold lookupMenuItem
  rw [find?_map_ite_id db.menuItems m.id m
    (fun x => { x with
      stock_quantity := m.stock_quantity - m.stock_quantity,
      updated_at := now }) (fun x => rfl) hitem,
    Nat.sub_self]

/-- C3 witness: on `dbAB`, ordering exactly the 10 units of `itemA`
succeeds and leaves its stock at 0; ordering 11 units fails with the
InsufficientStock error naming the item, 10 available, 11 requested, and
leaves the store unchanged. -/
theorem createOrder_stock_boundary_witness :
    (((createOrder ⟨1, 100, none, [⟨itemA.id, itemA.stock_quantity⟩]⟩ 7
        dbAB).1).isOk = true ∧
      lookupMenuItem
        ((createOrder ⟨1, 100, none, [⟨itemA.id, itemA.stock_quantity⟩]⟩ 7
          dbAB).2).menuItems itemA.id =
        some { itemA with stock_quantity := 0, updated_at := 7 }) ∧
    createOrder ⟨1, 100, none, [⟨itemA.id, itemA.stock_quantity + 1⟩]⟩ 7
        dbAB =
      (.error (.insufficientStock itemA.name itemA.stock_quantity
        (itemA.stock_quantity + 1)), dbAB) :=
  createOrder_stock_boundary dbAB 7 1 100 none userAlice itemA
    (by decide) (by decide) (by decide)

theorem contains_eq_decide_mem (l : List Nat) (a : Nat) :
    l.contains a = decide (a ∈ l) := by
  simp [List.contains]

theorem length_filter_or_disjoint (l : List Nat) (p q : Nat → Bool)
    (h : ∀ x ∈ l, ¬(p x = true ∧ q x = true)) :
    (l.filter (fun x => p x || q x)).length
      = (l.filter p).length + (l.filter q).length := by
  induction l with
  | nil => rfl
  | cons a t ih =>
    have ht := ih (fun x hx => h x (List.mem_cons_of_mem a hx))
    cases hp : p a <;> cases hq : q a
    · simp [List.filter_cons, hp, hq, ht]
    · simp [List.filter_cons, hp, hq, ht]
      omega
    · simp [List.filter_cons, hp, hq, ht]
      omega
    · exact absurd ⟨hp, hq⟩ (h a (List.mem_cons_self a t))

theorem length_filter_beq_of_nodup (l : List Nat) (x : Nat) (hn : l.Nodup) :
    (l.filter (fun i => x == i)).length = if x ∈ l then 1 else 0 := by
  induction l with
  | nil => simp
  | cons b t ih =>
    rw [List.nodup_cons] at hn
    cases hxb : x == b
    · have hne : x ≠ b := by simpa using hxb
      rw [List.filter_cons_of_neg (by simp [hxb]), ih hn.2]
      simp [List.mem_cons, hne]
    · have heq : x = b := by simpa using hxb
      have ht : t.filter (fun i => x == i) = [] := by
        rw [List.filter_eq_nil_iff]
        intro i hi hxi
        exact hn.1 (heq ▸ (by simpa using hxi : x = i) ▸ hi)
      rw [List.filter_cons_of_pos hxb, ht]
      simp [List.mem_cons, heq]

theorem length_filter_mem_eq (table : List MenuItem) (ids : List Nat)
    (hn : (table.map MenuItem.id).Nodup) :
    (table.filter (fun m => ids.contains m.id)).length
      = (ids.dedup.filter (fun i =>
          table.any (fun m => m.id == i))).length := by
  induction table with
  | nil => simp
  | cons a t ih =>
    rw [List.map_cons, List.nodup_cons] at hn
    have ht := ih hn.2
    have hdisj : ∀ i ∈ ids.dedup,
        ¬((a.id == i) = true ∧ (t.any (fun m => m.id == i)) = true) := by
      rintro i _ ⟨h1, h2⟩
      obtain ⟨m, hm, hmi⟩ := List.any_eq_true.mp h2
      exact hn.1 (((by simpa using h1 : a.id = i).trans
        (by simpa using hmi : m.id = i).symm) ▸
        List.mem_map_of_mem MenuItem.id hm)
    have hsplit : (ids.dedup.filter (fun i =>
        (a :: t).any (fun m => m.id == i))).length
        = (ids.dedup.filter (fun i => a.id == i)).length
          + (ids.dedup.filter (fun i =>
              t.any (fun m => m.id == i))).length := by
      calc (ids.dedup.filter (fun i =>
            (a :: t).any (fun m => m.id == i))).length
          = (ids.dedup.filter (fun i =>
              (a.id == i) || t.any (fun m => m.id == i))).length := by
            apply congrArg List.length
            apply List.filter_congr
            intro i _
            simp [List.any_cons]
        _ = _ := length_filter_or_disjoint ids.dedup _ _ hdisj
    rw [hsplit,
      length_filter_beq_of_nodup ids.dedup a.id (List.nodup_dedup ids)]
    by_cases hmem : a.id ∈ ids
    · rw [List.filter_cons_of_pos
        (by rw [contains_eq_decide_mem]; simpa using hmem),
        List.length_cons, ht, if_pos (List.mem_dedup.mpr hmem)]
      omega
    · rw [List.filter_cons_of_neg
        (by rw [contains_eq_decide_mem]; simpa using hmem), ht,
        if_neg (fun hc => hmem (List.mem_dedup.mp hc))]
      omega

theorem fetched_length_eq_iff (table : List MenuItem) (ids : List Nat)
    (hn : (table.map MenuItem.id).Nodup) :
    (table.filter (fun m => ids.contains m.id)).length = ids.length ↔
      (ids.Nodup ∧ ∀ i ∈ ids, ∃ m ∈ table, m.id = i) := by
  rw [length_filter_mem_eq table ids hn]
  constructor
  · intro h
    have h1 := List.length_filter_le
      (fun i => table.any (fun m => m.id == i)) ids.dedup
    have h2 := (List.dedup_sublist ids).length_le
    have e2 : ids.dedup.length = ids.length := by omega
    have hnodup : ids.Nodup :=
      List.dedup_eq_self.mp ((List.dedup_sublist ids).eq_of_length e2)
    have e1 : (ids.dedup.filter (fun i =>
        table.any (fun m => m.id == i))).length = ids.dedup.length := by
      omega
    have hfil := (List.filter_sublist ids.dedup).eq_of_length e1
    have hall := List.filter_eq_self.mp hfil
    refine ⟨hnodup, fun i hi => ?_⟩
    obtain ⟨m, hm, hmi⟩ := List.any_eq_true.mp
      (hall i (List.mem_dedup.mpr hi))
    exact ⟨m, hm, by simpa using hmi⟩
  · rintro ⟨hnodup, hall⟩
    have hall2 : ∀ i ∈ ids.dedup,
        table.any (fun m => m.id == i) = true := by
      intro i hi
      obtain ⟨m, hm, hmi⟩ := hall i (List.mem_dedup.mp hi)
      exact List.any_eq_true.mpr ⟨m, hm, by simp [hmi]⟩
    rw [List.filter_eq_self.mpr hall2, List.dedup_eq_self.mpr hnodup]

theorem lines_ids_exists_iff (db : DB) (input : CreateOrderInput) :
    (∀ i ∈ requestedIds input, ∃ m ∈ db.menuItems, m.id = i) ↔
      (∀ l ∈ input.order_items, ∃ m ∈ db.menuItems,
        m.id = l.menu_item_id) := by
  unfold requestedIds
  constructor
  · intro h l hl
    exact h l.menu_item_id (List.mem_map_of_mem _ hl)
  · intro h i hi
    obtain ⟨l, hl, rfl⟩ := List.mem_map.mp hi
    exact h l hl

/-- C5 (amended): for a request whose user exists, `createOrder` fails with
the NotFound error "One or more menu items not found" iff NOT every
requested id resolves with pairwise-distinct request lines — i.e. iff some
requested menu_item_id is absent from the catalog OR the request lists
some menu_item_id on more than one line.  (The handler compares the count
of fetched rows — one per distinct existing id — with the number of
request lines, so duplicate lines of an existing item also trigger the
error; see the counterexample.) -/
theorem createOrder_menuItemsNotFound_iff (input : CreateOrderInput)
    (now : Nat) (db : DB) (u : User)
    (hnodup : (db.menuItems.map MenuItem.id).Nodup)
    (huser : findUser db input.user_id = some u) :
    ((createOrder input now db).1 = .error .menuItemsNotFound ↔
      ¬((requestedIds input).Nodup ∧
        ∀ l ∈ input.order_items, ∃ m ∈ db.menuItems,
          m.id = l.menu_item_id)) := by
  have hiff := (fetched_length_eq_iff db.menuItems (requestedIds input)
    hnodup).trans (and_congr_right (fun _ => lines_ids_exists_iff db input))
  simp only [createOrder, huser]
  by_cases hlen : (fetchedItems db input).length = (requestedIds input).length
  · rw [if_neg (by rw [hlen]; exact fun hne => hne rfl)]
    apply iff_of_false
    · cases hcst : checkStockAndTotal (fetchedItems db input)
          input.order_items 0 with
      | error e =>
        simp only [hcst]
        intro h
        apply checkStockAndTotal_no_notFoundAll (fetchedItems db input)
          input.order_items 0
        rw [hcst]
        have he : e = .menuItemsNotFound := by
          have := congrArg id h
          simpa using this
        rw [he]
      | ok total => simp [hcst]
    · rw [not_not]
      exact hiff.mp hlen
  · rw [if_pos hlen]
    exact iff_of_true rfl (fun hc => hlen (hiff.mpr hc))

/-- C5 amended-theorem witness: instantiated at the duplicate-line cart on
`dbAB`, where the right side holds because the two lines repeat id 1. -/
theorem createOrder_menuItemsNotFound_iff_witness :
    ((createOrder cartDup 7 dbAB).1 = .error .menuItemsNotFound ↔
      ¬((requestedIds cartDup).Nodup ∧
        ∀ l ∈ cartDup.order_items, ∃ m ∈ dbAB.menuItems,
          m.id = l.menu_item_id)) :=
  createOrder_menuItemsNotFound_iff cartDup 7 dbAB userAlice
    (by decide) (by decide)

theorem createOrder_orderItems_mono (input : CreateOrderInput) (now : Nat)
    (db : DB) : ∀ oi ∈ db.orderItems,
      oi ∈ (createOrder input now db).2.orderItems := by
  intro oi h
  simp only [createOrder]
  split
  · exact h
  · split
    · exact h
    · split
      · exact h
      · exact foldl_applyWrite_orderItems_mono _ db oi h

theorem applyOp_orderItems_mono (db : DB) (op : Op) :
    ∀ oi ∈ db.orderItems, oi ∈ (applyOp db op).orderItems := by
  intro oi h
  cases op with
  | placeOrder input now =>
    exact createOrder_orderItems_mono input now db oi h
  | patchMenuItem input now =>
    simp only [applyOp, updateMenuItem]
    split
    · exact h
    · exact h
  | setOrderStatus input now =>
    simp only [applyOp, updateOrderStatus]
    split
    · exact h
    · exact h
  | removeDepartment i => exact h

/-- C6: order-item rows are immutable: whatever sequence of API operations
runs after an order item exists — in particular any number of
`updateMenuItem` price patches on the referenced menu item — the row (and
so its `price_at_order`) is still present unchanged.  `price_at_order` is
written exactly once, by the order-item insert at order creation; no
modelled operation updates the `order_items` table. -/
theorem orderItem_rows_immutable (db : DB) (ops : List Op) :
    ∀ oi ∈ db.orderItems, oi ∈ (applyOps db ops).orderItems := by
  induction ops generalizing db with
  | nil => intro oi h; exact h
  | cons op t ih =>
    intro oi h
    exact ih (applyOp db op) oi (applyOp_orderItems_mono db op oi h)

/-- C6 witness: after updating `itemA`'s price to 9, the order item frozen
at price 5 is still in the store unchanged. -/
theorem orderItem_rows_immutable_witness :
    orderItemFix ∈
      (applyOps dbWithOrder [Op.patchMenuItem priceUpdate 9]).orderItems :=
  orderItem_rows_immutable dbWithOrder [Op.patchMenuItem priceUpdate 9]
    orderItemFix (by decide)

/-- C7 (spec-modelled): for an order id absent from the ledger,
`updateOrderStatus` fails with the NotFound error carrying the id (message
"Order with id {id} not found") and leaves the store unchanged; it returns
an order only when an order with that id exists. -/
theorem updateOrderStatus_notFound (input : UpdateOrderStatusInput)
    (now : Nat) (db : DB) :
    ((db.orders.find? (fun o => o.id == input.id) = none →
      updateOrderStatus input now db
        = (.error (.orderNotFound input.id), db)) ∧
     (∀ o', (updateOrderStatus input now db).1 = .ok o' →
       ∃ o ∈ db.orders, o.id = input.id)) := by
  constructor
  · intro h
    simp only [updateOrderStatus, h]
  · intro o' h
    simp only [updateOrderStatus] at h
    split at h
    · exact absurd h (by simp)
    · rename_i o ho
      exact ⟨o, List.mem_of_find?_eq_some ho,
        by simpa using List.find?_some ho⟩

/-- C7 witness: on the empty ledger, setting order 5 to any status fails
with NotFound for id 5 and the store is unchanged. -/
theorem updateOrderStatus_notFound_witness :
    updateOrderStatus ⟨5, .confirmed⟩ 3 dbEmpty
      = (.error (.orderNotFound 5), dbEmpty) :=
  (updateOrderStatus_notFound ⟨5, .confirmed⟩ 3 dbEmpty).1 (by decide)

theorem joinedItemsFor_eq_spec (db : DB)
    (hint : ∀ oi ∈ db.orderItems, ∃ o ∈ db.orders, o.id = oi.order_id)
    (mid : Nat) : joinedItemsFor db mid = specItemsFor db mid := by
  unfold joinedItemsFor specItemsFor
  apply List.filter_congr
  intro oi hoi
  obtain ⟨o, ho, hid⟩ := hint oi hoi
  have hany : db.orders.any (fun o2 => o2.id == oi.order_id) = true :=
    List.any_eq_true.mpr ⟨o, ho, by simp [hid]⟩
  rw [hany, Bool.and_true]

/-- C9: under the schema's referential integrity (every order item's
`order_id` and `menu_item_id` resolve), the menu-item report is, up to
order, exactly one aggregate row per menu item occurring in some order
item — `total_orders` the number of distinct orders containing it,
`total_quantity` the sum of quantities, `total_amount` the sum of
quantity × price_at_order (`aggregateRow` over the plain
group-by-menu_item_id of all order items) — the returned rows are sorted
by `total_amount` descending, and every order item is covered by some
returned row. -/
theorem getMenuItemReports_spec (db : DB)
    (hords : ∀ oi ∈ db.orderItems, ∃ o ∈ db.orders, o.id = oi.order_id)
    (hmenu : ∀ oi ∈ db.orderItems, ∃ m ∈ db.menuItems,
      m.id = oi.menu_item_id) :
    (getMenuItemReports db).Perm (specMenuItemRows db) ∧
    List.Sorted reportGE (getMenuItemReports db) ∧
    ∀ oi ∈ db.orderItems, ∃ r ∈ getMenuItemReports db,
      r.menu_item_id = oi.menu_item_id := by
  have hj : ∀ mid, joinedItemsFor db mid = specItemsFor db mid :=
    joinedItemsFor_eq_spec db hords
  have hrows : (db.menuItems.filter (fun m =>
      decide (joinedItemsFor db m.id ≠ []))).map
        (fun m => aggregateRow m (joinedItemsFor db m.id))
      = specMenuItemRows db := by
    unfold specMenuItemRows
    simp only [hj]
  have hperm : (getMenuItemReports db).Perm (specMenuItemRows db) := by
    rw [← hrows]
    exact List.perm_insertionSort reportGE _
  refine ⟨hperm, ?_, ?_⟩
  · exact List.sorted_insertionSort reportGE _
  · intro oi hoi
    obtain ⟨m, hm, hmid⟩ := hmenu oi hoi
    have hne : specItemsFor db m.id ≠ [] := by
      intro hnil
      have : oi ∈ specItemsFor db m.id := by
        unfold specItemsFor
        exact List.mem_filter.mpr ⟨hoi, by simp [hmid]⟩
      rw [hnil] at this
      cases this
    have hmem : aggregateRow m (specItemsFor db m.id) ∈ specMenuItemRows db := by
      unfold specMenuItemRows
      exact List.mem_map_of_mem _
        (List.mem_filter.mpr ⟨hm, by simpa using hne⟩)
    refine ⟨aggregateRow m (specItemsFor db m.id),
      (hperm.mem_iff).mpr hmem, ?_⟩
    show m.id = oi.menu_item_id
    exact hmid

/-- C9 witness: on the store with one placed order for `itemA`, the report
properties hold (integrity hypotheses hold by computation). -/
theorem getMenuItemReports_spec_witness :
    (getMenuItemReports dbWithOrder).Perm (specMenuItemRows dbWithOrder) ∧
    List.Sorted reportGE (getMenuItemReports dbWithOrder) ∧
    ∀ oi ∈ dbWithOrder.orderItems, ∃ r ∈ getMenuItemReports dbWithOrder,
      r.menu_item_id = oi.menu_item_id :=
  getMenuItemReports_spec dbWithOrder (by decide) (by decide)

/-- C10: `deleteDepartment` never throws NotFound (it is a total function
into `Bool × DB`); it returns `success = true` exactly when a department
with the id existed — in which case exactly the matching rows are removed
and all others kept — and `success = false` with the store unchanged when
no such department exists. -/
theorem deleteDepartment_success_iff (id : Nat) (db : DB) :
    ((deleteDepartment id db).1 = true ↔
      ∃ d ∈ db.departments, d.id = id) ∧
    ((∀ d ∈ db.departments, d.id ≠ id) →
      (deleteDepartment id db).2 = db) ∧
    (∀ d ∈ (deleteDepartment id db).2.departments, d.id ≠ id) ∧
    (∀ d ∈ db.departments, d.id ≠ id →
      d ∈ (deleteDepartment id db).2.departments) := by
  refine ⟨?_, ?_, ?_, ?_⟩
  · show decide (0 < (db.departments.filter
      (fun d => d.id == id)).length) = true ↔ _
    rw [decide_eq_true_eq]
    constructor
    · intro h
      obtain ⟨d, hd⟩ := List.length_pos_iff_exists_mem.mp h
      have hd2 := List.mem_filter.mp hd
      exact ⟨d, hd2.1, by simpa using hd2.2⟩
    · rintro ⟨d, hd, hdi⟩
      exact List.length_pos_iff_exists_mem.mpr
        ⟨d, List.mem_filter.mpr ⟨hd, by simp [hdi]⟩⟩
  · intro h
    show { db with departments := db.departments.filter _ } = db
    have hf : db.departments.filter (fun d => ¬ d.id == id)
        = db.departments := by
      rw [List.filter_eq_self]
      intro d hd
      simpa using h d hd
    rw [hf]
  · intro d hd
    have hd2 := List.mem_filter.mp hd
    simpa using hd2.2
  · intro d hd hne
    exact List.mem_filter.mpr ⟨hd, by simpa using hne⟩

/-- C10 witness: on `dbAB` (one department, id 1) deleting id 1 reports
success, and deleting the absent id 5 leaves the store unchanged. -/
theorem deleteDepartment_success_iff_witness :
    (deleteDepartment 1 dbAB).1 = true ∧
    (deleteDepartment 5 dbAB).2 = dbAB :=
  ⟨(deleteDepartment_success_iff 1 dbAB).1.mpr ⟨⟨1, "IT", 0⟩,
      by decide, rfl⟩,
   (deleteDepartment_success_iff 5 dbAB).2.1 (by decide)⟩
